import Mathlib

/-!
Verification development for the token expiration notifier
(src/main.rs of daniilborovoy/expiration-notifier).

The program is a small CLI plus a polling daemon:
a SQLite table of tokens (name UNIQUE, expires_at TEXT, last_notified TEXT NULL),
commands add / remove / list / daemon, and a sweep that selects records whose
expiry date falls within a configured threshold of the current date, sends a
Telegram message for each, and writes back a last_notified timestamp on success.

The embedding below models, faithfully to the source:
  - calendar arithmetic on proleptic Gregorian dates (day counts since 1970-01-01);
  - the chrono parse used by add_token, namely
    NaiveDate::parse_from_str(s, "%Y-%m-%d");
  - the SQLite date() function as used by the query of get_expiring_tokens,
    namely date(expires_at) <= date(now, "+" || threshold || " days");
  - the store operations add_token, remove_token, update_last_notified,
    get_expiring_tokens as pure functions on a list of rows;
  - check_and_notify as a pure sweep parameterized by the outcome of each
    outbound HTTP call and by a clock supplying the wall times read by
    update_last_notified;
  - run_daemon as the trace of iterated sweeps;
  - main (init_db, Config::from_env, command dispatch) as a function from the
    command, the environment and the initial store to events and a final store.

Timestamps are modelled as natural numbers (seconds); the code stores a
formatted UTC string whose lexicographic order agrees with the numeric order
of the instants it encodes.
-/

deriving instance DecidableEq for Except

namespace ExpNotifier

/-! ## Calendar arithmetic (proleptic Gregorian) -/

/-- A calendar date, year-month-day, as produced by the date parsers. -/
structure Date where
  year : Int
  month : Nat
  day : Nat
deriving DecidableEq, Repr

/-- Gregorian leap year test, as used by both chrono and SQLite. -/
def isLeapYear (y : Int) : Bool :=
  y % 4 == 0 && (y % 100 != 0 || y % 400 == 0)

/-- Number of days in a month of a given year (Gregorian). -/
def daysInMonth (y : Int) (m : Nat) : Nat :=
  match m with
  | 1 => 31
  | 2 => if isLeapYear y then 29 else 28
  | 3 => 31
  | 4 => 30
  | 5 => 31
  | 6 => 30
  | 7 => 31
  | 8 => 31
  | 9 => 30
  | 10 => 31
  | 11 => 30
  | 12 => 31
  | _ => 0

/-- Days from 1970-01-01 to the given proleptic Gregorian date (negative for
earlier dates). Standard civil-calendar day count; this is the day arithmetic
underlying both the chrono NaiveDate subtraction in check_and_notify and the
julian-day arithmetic of the SQLite date() function. -/
def daysFromCivil (y : Int) (m d : Nat) : Int :=
  let y2 : Int := if m ≤ 2 then y - 1 else y
  let era : Int := Int.fdiv y2 400
  let yoe : Int := y2 - era * 400
  let mp : Int := if 2 < m then (m : Int) - 3 else (m : Int) + 9
  let doy : Int := Int.fdiv (153 * mp + 2) 5 + (d : Int) - 1
  let doe : Int := yoe * 365 + Int.fdiv yoe 4 - Int.fdiv yoe 100 + doy
  era * 146097 + doe - 719468

/-- Day count of a Date value. -/
def Date.toDays (dt : Date) : Int :=
  daysFromCivil dt.year dt.month dt.day

/-- Whether (y, m, d) denotes an existing calendar day; this is the validation
performed by chrono NaiveDate::from_ymd, together with the chrono year range
(MIN_YEAR = -262144, MAX_YEAR = 262143; years outside it are rejected). -/
def validYMD (y : Int) (m d : Nat) : Bool :=
  1 ≤ m && m ≤ 12 && 1 ≤ d && d ≤ daysInMonth y m &&
    (-262144 : Int) ≤ y && y ≤ (262143 : Int)

/-! ## Digit scanning helpers -/

/-- Numeric value of a decimal digit character. -/
def digitVal (c : Char) : Nat := c.toNat - '0'.toNat

/-- Value of a list of decimal digit characters, most significant first. -/
def digitsToNat (l : List Char) : Nat :=
  l.foldl (fun a c => a * 10 + digitVal c) 0

/-- chrono scan::number with minimum one digit and the given maximum width:
consume up to max leading digits, fail when there is none. -/
def scanNumber (max : Nat) (cs : List Char) : Option (Nat × List Char) :=
  let used := (cs.takeWhile Char.isDigit).take max
  if used.isEmpty then none
  else some (digitsToNat used, cs.drop used.length)

/-- chrono scan::number with no maximum width (used after an explicit sign):
consume all leading digits, fail when there is none. -/
def scanAllDigits (cs : List Char) : Option (Nat × List Char) :=
  let used := cs.takeWhile Char.isDigit
  if used.isEmpty then none
  else some (digitsToNat used, cs.drop used.length)

/-! ## chrono NaiveDate::parse_from_str(s, "%Y-%m-%d")

The format compiles to [Numeric(Year), Literal -, Numeric(Month), Literal -,
Numeric(Day)]. Each numeric item first skips leading whitespace, then parses
either an explicitly signed number of unbounded width or an unsigned number of
at most the item width (4 for the year, 2 for month and day). Literals must
match exactly, and the whole input must be consumed. The resulting fields are
then validated by from_ymd. Whitespace is modelled as ASCII whitespace. -/

/-- The year item of the chrono format: whitespace, then an optionally signed
year number (width 4 when unsigned, unbounded when signed). -/
def parseYearChrono (cs : List Char) : Option (Int × List Char) :=
  let cs := cs.dropWhile Char.isWhitespace
  match cs with
  | '-' :: rest => (scanAllDigits rest).map (fun p => (-(p.1 : Int), p.2))
  | '+' :: rest => (scanAllDigits rest).map (fun p => ((p.1 : Int), p.2))
  | _ => (scanNumber 4 cs).map (fun p => ((p.1 : Int), p.2))

/-- A month or day item: whitespace, then one or two digits. -/
def parseTwoDigitItem (cs : List Char) : Option (Nat × List Char) :=
  scanNumber 2 (cs.dropWhile Char.isWhitespace)

/-- Model of NaiveDate::parse_from_str(s, "%Y-%m-%d") from chrono, as called
by add_token and by check_and_notify on stored strings. -/
def parseFromStrYMD (s : String) : Option Date :=
  match parseYearChrono s.data with
  | none => none
  | some (y, r1) =>
    match r1 with
    | '-' :: r2 =>
      match parseTwoDigitItem r2 with
      | none => none
      | some (m, r3) =>
        match r3 with
        | '-' :: r4 =>
          match parseTwoDigitItem r4 with
          | none => none
          | some (d, r5) =>
            if r5.isEmpty && validYMD y m d then some ⟨y, m, d⟩ else none
        | _ => none
    | _ => none

/-! ## SQLite date() on the strings this program feeds it

get_expiring_tokens evaluates
  date(expires_at) <= date(nowString, "+" || thresholdDays || " days").
SQLite parses a bare date as [-]YYYY-MM-DD with exactly 4, 2 and 2 digits,
month in 1..12 and day in 1..31 (days beyond the month length are normalized
by the julian-day arithmetic), converts it to a julian-day instant, and yields
NULL when the instant falls outside the supported range
(0 <= iJD <= 464269060799999 milliseconds, i.e. civil days -2440587 through
2932896 counted from 1970-01-01, i.e. up to 9999-12-31). A NULL on either side
makes the WHERE comparison false. Day counts stand in for the rendered text of
date(); on the comparisons this program performs (the right operand always
renders with a nonnegative four-digit year) the numeric order of the day
counts coincides with the lexicographic order of the rendered strings. -/

/-- Smallest civil day count (from 1970-01-01) representable by SQLite date(). -/
def sqliteMinDay : Int := -2440587

/-- Largest civil day count representable by SQLite date(); this is 9999-12-31. -/
def sqliteMaxDay : Int := 2932896

/-- The final range check SQLite applies before rendering a date. -/
def sqliteRangeCheck (jd : Int) : Option Int :=
  if sqliteMinDay ≤ jd && jd ≤ sqliteMaxDay then some jd else none

/-- Exactly n leading digit characters. -/
def getDigitsExact (n : Nat) (cs : List Char) : Option (Nat × List Char) :=
  let pre := cs.take n
  if pre.length = n && pre.all Char.isDigit then some (digitsToNat pre, cs.drop n)
  else none

/-- The shape parse of a bare SQLite date string, before the range check:
[-]YYYY-MM-DD with exactly 4, 2 and 2 digits, month 1..12, day 1..31, whole
input consumed; yields the civil day count of the denoted day. -/
def sqliteParseYMDRaw (s : String) : Option Int :=
  let (neg, cs) := match s.data with
    | '-' :: r => (true, r)
    | r => (false, r)
  match getDigitsExact 4 cs with
  | none => none
  | some (y, r1) =>
    match r1 with
    | '-' :: r2 =>
      match getDigitsExact 2 r2 with
      | none => none
      | some (m, r3) =>
        if m < 1 || 12 < m then none
        else match r3 with
        | '-' :: r4 =>
          match getDigitsExact 2 r4 with
          | none => none
          | some (d, r5) =>
            if d < 1 || 31 < d then none
            else if !r5.isEmpty then none
            else
              let yr : Int := if neg then -(y : Int) else (y : Int)
              some (daysFromCivil yr m d)
        | _ => none
    | _ => none

/-- Model of the SQLite date() function on a bare date string: the civil day
count of the denoted day, or none when SQLite would yield NULL. Trailing time
components are not modelled: no string reaching this query can carry one,
because every stored expires_at passed the chrono parse, which consumes the
entire input as a date. -/
def sqliteDateJD (s : String) : Option Int :=
  (sqliteParseYMDRaw s).bind sqliteRangeCheck

/-- Model of date(base, "+" || n || " days"). For n < 0 the constructed
modifier reads "+-k days"; sqlite3AtoF rejects the numeric part "+-k", so the
modifier is invalid and date() yields NULL. For n >= 0 the modifier adds n
days and the result is NULL when it leaves the supported range. -/
def sqliteDateAddDays (base : String) (n : Int) : Option Int :=
  if n < 0 then none
  else
    match sqliteDateJD base with
    | none => none
    | some jd => sqliteRangeCheck (jd + n)

/-- Zero-padding to four digits, as chrono renders %Y for years 0 through 9999. -/
def pad4 (n : Nat) : String :=
  String.mk (List.replicate (4 - (toString n).length) '0') ++ toString n

/-- Zero-padding to two digits, as chrono renders %m and %d. -/
def pad2 (n : Nat) : String :=
  String.mk (List.replicate (2 - (toString n).length) '0') ++ toString n

/-- chrono formatting of a date with "%Y-%m-%d", used for the now argument of
the query (Utc::now) and, with a time suffix not modelled here, for the
last_notified column. -/
def formatYMD (dt : Date) : String :=
  (if dt.year < 0 then "-" ++ pad4 (-dt.year).toNat
   else if dt.year ≤ 9999 then pad4 dt.year.toNat
   else "+" ++ toString dt.year.toNat)
  ++ "-" ++ pad2 dt.month ++ "-" ++ pad2 dt.day

/-! ## Data model and store operations -/

/-- One row of the tokens table. The id column (an auto rowid) carries no
information used by the program and is omitted; last_notified is modelled as a
numeric timestamp instead of the formatted UTC string the code stores. -/
structure Token where
  name : String
  expires_at : String
  last_notified : Option Nat
deriving DecidableEq, Repr

/-- Error taxonomy of the program: rusqlite InvalidParameterName wrapping a
chrono parse failure (the validation errors), and the string errors of
Config::from_env (the configuration errors). -/
inductive AppError where
  | validation (msg : String)
  | config (msg : String)
deriving DecidableEq, Repr

/-- Whether a result is a validation failure. -/
def isValidationError {α : Type} : Except AppError α → Bool
  | .error (.validation _) => true
  | _ => false

/-- add_token: validate the date with chrono, then INSERT OR REPLACE the row.
On a name conflict, INSERT OR REPLACE deletes every conflicting row and inserts
a fresh one; the statement supplies only name and expires_at, so last_notified
of the fresh row is NULL. On parse failure nothing is executed. -/
def add_token (store : List Token) (name expires_at : String) :
    Except AppError (List Token) :=
  match parseFromStrYMD expires_at with
  | none => .error (.validation "invalid date format")
  | some _ => .ok (store.filter (fun t => t.name != name) ++ [⟨name, expires_at, none⟩])

/-- remove_token: DELETE FROM tokens WHERE name = ?. Deleting zero rows is
still a success. -/
def remove_token (store : List Token) (name : String) : List Token :=
  store.filter (fun t => t.name != name)

/-- update_last_notified: UPDATE tokens SET last_notified = now WHERE name = ?.
A no-op when no row has the name. -/
def update_last_notified (store : List Token) (name : String) (now : Nat) :
    List Token :=
  store.map (fun t => if t.name == name then { t with last_notified := some now } else t)

/-- The WHERE predicate of get_expiring_tokens:
  date(expires_at) <= date(now, "+" || thresholdDays || " days").
A NULL on either side of the comparison excludes the row. -/
def dueFilter (thresholdDays : Int) (utcToday : Date) (t : Token) : Bool :=
  match sqliteDateJD t.expires_at, sqliteDateAddDays (formatYMD utcToday) thresholdDays with
  | some a, some b => decide (a ≤ b)
  | _, _ => false

/-- get_expiring_tokens: SELECT the rows satisfying the WHERE predicate above,
where now is the current UTC date rendered as %Y-%m-%d. -/
def get_expiring_tokens (store : List Token) (thresholdDays : Int) (utcToday : Date) :
    List Token :=
  store.filter (dueFilter thresholdDays utcToday)

/-- First row with the given name, as a SELECT ... WHERE name = ? would see it. -/
def lookupName (store : List Token) (name : String) : Option Token :=
  store.find? (fun t => t.name == name)

/-- A token with its notification state forgotten; two stores that agree under
this map differ at most in last_notified. -/
def eraseLastNotified (t : Token) : Token :=
  { t with last_notified := none }

/-! ## Notification channel and sweep -/

/-- Outcome of one outbound HTTP call at the transport level: either the
request failed below HTTP (connection, DNS, ...) or a response with some
status code came back. -/
inductive HttpOutcome where
  | transportError (msg : String)
  | response (status : Nat)
deriving DecidableEq, Repr

/-- send_telegram_notification: client.post(url).form(params).send() followed
by Ok(()). reqwest send() returns Err only for transport-level failures; the
response, including its status code, is discarded without inspection. -/
def send_telegram_notification (outcome : HttpOutcome) : Except String Unit :=
  match outcome with
  | .transportError m => .error m
  | .response _ => .ok ()

/-- The message built in check_and_notify from the name and the day difference
expires_date - today computed with chrono date subtraction. -/
def buildMessage (name : String) (daysRemaining : Int) : String :=
  if daysRemaining ≤ 0 then
    "🚨 Token \x27" ++ name ++ "\x27 has EXPIRED!"
  else
    "⚠️ Token \x27" ++ name ++ "\x27 will expire in " ++ toString daysRemaining
      ++ " day" ++ (if 1 < daysRemaining then "s" else "") ++ "!"

/-- Result of one sweep: the store after the write-backs, the sends attempted
in order (token name and message text), and the error that aborted the sweep,
when one did. -/
structure SweepResult where
  store : List Token
  attempts : List (String × String)
  err : Option AppError
deriving DecidableEq, Repr

/-- The loop body of check_and_notify over the already-selected due rows.
The index i numbers the attempted sends; exchange i is the transport outcome
of the i-th send and clock i the UTC instant update_last_notified reads for
it. A stored expires_at that chrono cannot parse raises an error through the
question-mark operator and aborts the sweep, keeping earlier write-backs. A
failed send is logged and skipped; a completed exchange leads to the
write-back of last_notified. -/
def sweepGo (exchange : Nat → HttpOutcome) (clock : Nat → Nat) (localToday : Date) :
    List Token → Nat → List Token → List (String × String) → SweepResult
  | [], _, st, acc => ⟨st, acc.reverse, none⟩
  | t :: rest, i, st, acc =>
    match parseFromStrYMD t.expires_at with
    | none => ⟨st, acc.reverse, some (.validation "invalid date format")⟩
    | some d =>
      let msg := buildMessage t.name (d.toDays - localToday.toDays)
      match send_telegram_notification (exchange i) with
      | .error _ => sweepGo exchange clock localToday rest (i + 1) st ((t.name, msg) :: acc)
      | .ok _ =>
        sweepGo exchange clock localToday rest (i + 1)
          (update_last_notified st t.name (clock i)) ((t.name, msg) :: acc)

/-- check_and_notify: select the due rows with the UTC date, then walk them,
building each message from the local date. -/
def check_and_notify (store : List Token) (thresholdDays : Int)
    (utcToday localToday : Date) (exchange : Nat → HttpOutcome) (clock : Nat → Nat) :
    SweepResult :=
  sweepGo exchange clock localToday (get_expiring_tokens store thresholdDays utcToday) 0 store []

/-- The state trace of run_daemon: sweep is the body of iteration n (its error
component is only printed to stderr), and the store after n iterations is
daemonTrace sweep s0 n. The loop has no exit; the function below being total,
the state after every iteration exists. -/
def daemonTrace (sweep : Nat → List Token → SweepResult) (s0 : List Token) :
    Nat → List Token
  | 0 => s0
  | n + 1 => (sweep n (daemonTrace sweep s0 n)).store

/-! ## Configuration and command surface -/

/-- The process environment (after the dotenv merge), as read by env::var. -/
def Env : Type := String → Option String

/-- Rust i64 FromStr: an optional sign, one or more ASCII digits, value within
the i64 range. -/
def parseI64Rust (s : String) : Option Int :=
  let (sign, rest) := match s.data with
    | '+' :: r => ((1 : Int), r)
    | '-' :: r => ((-1 : Int), r)
    | r => ((1 : Int), r)
  if rest.isEmpty || !rest.all Char.isDigit then none
  else
    let x : Int := sign * (digitsToNat rest : Int)
    if -(2 ^ 63) ≤ x && x ≤ 2 ^ 63 - 1 then some x else none

/-- Rust u64 FromStr: an optional plus sign, one or more ASCII digits, value
within the u64 range. -/
def parseU64Rust (s : String) : Option Nat :=
  let rest := match s.data with
    | '+' :: r => r
    | r => r
  if rest.isEmpty || !rest.all Char.isDigit then none
  else
    let x := digitsToNat rest
    if x ≤ 2 ^ 64 - 1 then some x else none

/-- The loaded configuration. -/
structure Config where
  telegram_bot_token : String
  telegram_chat_id : String
  notification_threshold_days : Int
  check_interval_seconds : Nat
deriving DecidableEq, Repr

/-- Config::from_env: the two Telegram variables are required; the threshold
defaults to 1 and the interval to 3600, each parsed as a number. -/
def Config.fromEnv (env : Env) : Except AppError Config :=
  match env "TELEGRAM_BOT_TOKEN" with
  | none => .error (.config "TELEGRAM_BOT_TOKEN environment variable not set")
  | some bot =>
    match env "TELEGRAM_CHAT_ID" with
    | none => .error (.config "TELEGRAM_CHAT_ID environment variable not set")
    | some chat =>
      match parseI64Rust ((env "NOTIFICATION_THRESHOLD_DAYS").getD "1") with
      | none => .error (.config "NOTIFICATION_THRESHOLD_DAYS must be a number")
      | some th =>
        match parseU64Rust ((env "CHECK_INTERVAL_SECONDS").getD "3600") with
        | none => .error (.config "CHECK_INTERVAL_SECONDS must be a number")
        | some iv => .ok ⟨bot, chat, th, iv⟩

/-- The four CLI subcommands. -/
inductive Command where
  | add (name expires_at : String)
  | remove (name : String)
  | list
  | daemon
deriving DecidableEq, Repr

/-- Observable milestones of one process invocation. storeAccess is init_db
(opening the database and executing CREATE TABLE IF NOT EXISTS). -/
inductive Event where
  | storeAccess
  | addPerformed
  | removePerformed
  | listPerformed
  | daemonStarted
deriving DecidableEq, Repr

/-- Outcome of one process invocation: the milestones in order, the persistent
store when the process exits (or, for daemon, when the loop starts), and the
error carried to a nonzero exit, if any. -/
structure MainResult where
  events : List Event
  store : List Token
  exitErr : Option AppError
deriving DecidableEq, Repr

/-- main: init_db first, then Config::from_env, then dispatch on the
subcommand. The daemon loop itself is modelled by daemonTrace; here its start
is only recorded. -/
def mainRun (cmd : Command) (env : Env) (db : List Token) : MainResult :=
  match Config.fromEnv env with
  | .error e => ⟨[.storeAccess], db, some e⟩
  | .ok _ =>
    match cmd with
    | .add name expires_at =>
      match add_token db name expires_at with
      | .error e => ⟨[.storeAccess], db, some e⟩
      | .ok db2 => ⟨[.storeAccess, .addPerformed], db2, none⟩
    | .remove name => ⟨[.storeAccess, .removePerformed], remove_token db name, none⟩
    | .list => ⟨[.storeAccess, .listPerformed], db, none⟩
    | .daemon => ⟨[.storeAccess, .daemonStarted], db, none⟩

/-! ## Store lemmas -/

/-- Rows surviving the delete of INSERT OR REPLACE never carry the new name. -/
theorem filter_ne_filter_eq (l : List Token) (X : String) :
    (l.filter (fun t => t.name != X)).filter (fun t => t.name == X) = [] := by
  induction l with
  | nil => rfl
  | cons a l ih =>
    cases ha : a.name == X with
    | true =>
      have ha2 : (a.name != X) = false := by simp [bne, ha]
      simpa only [List.filter, ha2] using ih
    | false =>
      have ha2 : (a.name != X) = true := by simp [bne, ha]
      simpa only [List.filter, ha2, ha] using ih

/-- After a successful add_token with name X, the rows named X are exactly the
freshly inserted one: expiry as given, last_notified NULL. -/
theorem add_token_ok_filter {base : List Token} {X d : String} {s : List Token}
    (h : add_token base X d = .ok s) :
    s.filter (fun t => t.name == X) = [⟨X, d, none⟩] := by
  unfold add_token at h
  cases hp : parseFromStrYMD d with
  | none => rw [hp] at h; cases h
  | some dd =>
    rw [hp] at h
    cases h
    rw [List.filter_append, filter_ne_filter_eq]
    simp [List.filter]

/-- update_last_notified on one name leaves lookups of other names unchanged. -/
theorem lookupName_update_ne (st : List Token) (m n : String) (ts : Nat) (h : m ≠ n) :
    lookupName (update_last_notified st m ts) n = lookupName st n := by
  induction st with
  | nil => rfl
  | cons a l ih =>
    cases ham : a.name == m with
    | false => cases han : a.name == n <;>
        simp [lookupName, update_last_notified, List.find?, ham, han] <;>
        simpa [lookupName, update_last_notified] using ih
    | true =>
      have ham2 : a.name = m := by simpa using ham
      have han : (a.name == n) = false := by
        simp [ham2]; exact h
      simp [lookupName, update_last_notified, List.find?, ham, han]
      simpa [lookupName, update_last_notified] using ih

/-- update_last_notified rewrites the looked-up row, keeping name and expiry. -/
theorem lookupName_update_self (st : List Token) (n : String) (ts : Nat) (u : Token)
    (h : lookupName st n = some u) :
    lookupName (update_last_notified st n ts) n =
      some { u with last_notified := some ts } := by
  induction st with
  | nil => cases h
  | cons a l ih =>
    cases han : a.name == n with
    | false =>
      have h2 : lookupName l n = some u := by
        simpa [lookupName, List.find?, han] using h
      simpa [lookupName, update_last_notified, List.find?, han] using ih h2
    | true =>
      have h2 : a = u := by simpa [lookupName, List.find?, han] using h
      subst h2
      simp [lookupName, update_last_notified, List.find?, han]

/-- With pairwise distinct names, looking up the name of a member returns that
member. -/
theorem lookupName_self_of_nodup (l : List Token) (hnd : (l.map Token.name).Nodup) :
    ∀ u ∈ l, lookupName l u.name = some u := by
  induction l with
  | nil => intro u hu; cases hu
  | cons a t ih =>
    intro u hu
    have hnd2 : a.name ∉ t.map Token.name ∧ (t.map Token.name).Nodup := by
      rw [List.map_cons, List.nodup_cons] at hnd
      exact hnd
    rcases List.mem_cons.mp hu with rfl | hu2
    · simp [lookupName, List.find?]
    · have hna : (a.name == u.name) = false := by
        simp only [beq_eq_false_iff_ne, ne_eq]
        intro he
        exact hnd2.1 (he ▸ List.mem_map_of_mem Token.name hu2)
      simpa [lookupName, List.find?, hna] using ih hnd2.2 u hu2

/-! ## Claim C1 -/

/-- Claim C1: for every name and every expires_at string that the chrono
parse of YYYY-MM-DD rejects, add_token fails with a validation error, and the
invocation leaves the store unchanged and exits nonzero: no row is created and
no existing row is replaced. -/
theorem add_token_invalid_date_rejected (db : List Token) (name s : String) (env : Env)
    (h : parseFromStrYMD s = none) :
    isValidationError (add_token db name s) = true ∧
    (mainRun (.add name s) env db).store = db ∧
    (mainRun (.add name s) env db).exitErr ≠ none := by
  have hadd : add_token db name s = .error (.validation "invalid date format") := by
    unfold add_token; rw [h]
  refine ⟨by rw [hadd]; rfl, ?_, ?_⟩ <;>
  · cases hc : Config.fromEnv env with
    | error e => simp [mainRun, hc]
    | ok c => simp [mainRun, hc, hadd]

/-- Witness for C1 at the malformed date of the specification. -/
theorem add_token_invalid_date_rejected_witness :
    parseFromStrYMD "2024-13-40" = none ∧
    (isValidationError (add_token [] "x" "2024-13-40") = true ∧
      (mainRun (.add "x" "2024-13-40") (fun _ => none) []).store = [] ∧
      (mainRun (.add "x" "2024-13-40") (fun _ => none) []).exitErr ≠ none) :=
  ⟨by decide,
   add_token_invalid_date_rejected [] "x" "2024-13-40" (fun _ => none) (by decide)⟩

/-! ## Claim C2 -/

/-- Claim C2: adding the same name twice leaves exactly one record under that
name, carrying the second expiry and no last_notified; the replace clears a
last_notified set in between by update_last_notified. -/
theorem add_token_replace_clears_notification (store : List Token) (X d1 d2 : String)
    (ts : Nat) (s1 s2 s3 : List Token)
    (h1 : add_token store X d1 = .ok s1)
    (h2 : add_token s1 X d2 = .ok s2)
    (h3 : add_token (update_last_notified s1 X ts) X d2 = .ok s3) :
    s2.filter (fun t => t.name == X) = [⟨X, d2, none⟩] ∧
    s3.filter (fun t => t.name == X) = [⟨X, d2, none⟩] :=
  ⟨add_token_ok_filter h2, add_token_ok_filter h3⟩

/-- Witness for C2 on concrete dates, with an intervening notification. -/
theorem add_token_replace_clears_notification_witness :
    ([(⟨"X", "2024-02-02", none⟩ : Token)].filter (fun t => t.name == "X") =
        [⟨"X", "2024-02-02", none⟩]) ∧
    ([(⟨"X", "2024-02-02", none⟩ : Token)].filter (fun t => t.name == "X") =
        [⟨"X", "2024-02-02", none⟩]) :=
  add_token_replace_clears_notification [] "X" "2024-01-01" "2024-02-02" 5
    [⟨"X", "2024-01-01", none⟩] [⟨"X", "2024-02-02", none⟩] [⟨"X", "2024-02-02", none⟩]
    (by decide) (by decide) (by decide)

/-! ## Claim C5 -/

/-- An environment carrying the chat id but missing the bot token. -/
def envMissingBot : Env := fun k => if k = "TELEGRAM_CHAT_ID" then some "42" else none

/-- Claim C5 counterexample: with the bot token missing, a list invocation
does exit with a configuration error before performing the action, but not
before any store access: init_db has already opened the database and executed
CREATE TABLE when Config::from_env fails, for every subcommand. -/
theorem config_after_store_access_counterexample :
    (mainRun .list envMissingBot []).exitErr =
      some (.config "TELEGRAM_BOT_TOKEN environment variable not set") ∧
    Event.storeAccess ∈ (mainRun .list envMissingBot []).events := by decide

/-- Claim C5 (amended): if a required messaging variable is missing, the
process exits with a fatal configuration error before performing the requested
action, for every subcommand (so even list fails without messaging
credentials) — but only after the store has been opened and initialized, since
init_db runs before Config::from_env. -/
theorem config_error_blocks_action (cmd : Command) (env : Env) (db : List Token)
    (e : AppError) (h : Config.fromEnv env = .error e) :
    mainRun cmd env db = ⟨[.storeAccess], db, some e⟩ := by
  cases cmd <;> simp [mainRun, h]

/-- Witness for the amended C5 at a concrete environment and subcommand. -/
theorem config_error_blocks_action_witness :
    mainRun .list envMissingBot [] =
      ⟨[.storeAccess], [],
        some (.config "TELEGRAM_BOT_TOKEN environment variable not set")⟩ :=
  config_error_blocks_action .list envMissingBot []
    (.config "TELEGRAM_BOT_TOKEN environment variable not set") (by decide)

/-! ## Claim C8 -/

/-- Claim C8: remove_token always succeeds; it deletes every row with the
name when present and is a no-op when none exists, and removing twice equals
removing once. -/
theorem remove_token_idempotent (s : List Token) (n : String) (env : Env) (cfg : Config)
    (hcfg : Config.fromEnv env = .ok cfg) :
    (∀ t ∈ remove_token s n, t.name ≠ n) ∧
    ((∀ t ∈ s, t.name ≠ n) → remove_token s n = s) ∧
    remove_token (remove_token s n) n = remove_token s n ∧
    (mainRun (.remove n) env s).exitErr = none ∧
    (mainRun (.remove n) env s).store = remove_token s n := by
  refine ⟨?_, ?_, ?_, ?_, ?_⟩
  · intro t ht
    simpa using (List.mem_filter.mp ht).2
  · intro hall
    apply List.filter_eq_self.mpr
    intro t ht
    simpa using hall t ht
  · apply List.filter_eq_self.mpr
    intro t ht
    exact (List.mem_filter.mp ht).2
  · simp [mainRun, hcfg]
  · simp [mainRun, hcfg]

/-- An environment carrying both required variables. -/
def envFull : Env := fun k =>
  if k = "TELEGRAM_BOT_TOKEN" then some "tok"
  else if k = "TELEGRAM_CHAT_ID" then some "42" else none

/-- Witness for C8: removing a name absent from a nonempty store. -/
theorem remove_token_idempotent_witness :
    (∀ t ∈ remove_token [(⟨"a", "2024-01-01", none⟩ : Token)] "b", t.name ≠ "b") ∧
    ((∀ t ∈ [(⟨"a", "2024-01-01", none⟩ : Token)], t.name ≠ "b") →
      remove_token [(⟨"a", "2024-01-01", none⟩ : Token)] "b" =
        [⟨"a", "2024-01-01", none⟩]) ∧
    remove_token (remove_token [(⟨"a", "2024-01-01", none⟩ : Token)] "b") "b" =
      remove_token [(⟨"a", "2024-01-01", none⟩ : Token)] "b" ∧
    (mainRun (.remove "b") envFull [⟨"a", "2024-01-01", none⟩]).exitErr = none ∧
    (mainRun (.remove "b") envFull [⟨"a", "2024-01-01", none⟩]).store =
      remove_token [(⟨"a", "2024-01-01", none⟩ : Token)] "b" :=
  remove_token_idempotent [⟨"a", "2024-01-01", none⟩] "b" envFull
    ⟨"tok", "42", 1, 3600⟩ (by decide)

/-! ## SQLite date lemmas -/

/-- A value passing the SQLite range check lies in the supported range. -/
theorem sqliteRangeCheck_some {x j : Int} (h : sqliteRangeCheck x = some j) :
    sqliteMinDay ≤ j ∧ j ≤ sqliteMaxDay := by
  unfold sqliteRangeCheck at h
  split at h
  · cases h
    rename_i hc
    simpa using hc
  · cases h

/-- A some result of SQLite date() lies in the supported range. -/
theorem sqliteDateJD_range {s : String} {j : Int} (h : sqliteDateJD s = some j) :
    sqliteMinDay ≤ j ∧ j ≤ sqliteMaxDay := by
  unfold sqliteDateJD at h
  rcases Option.bind_eq_some.mp h with ⟨x, _, h2⟩
  exact sqliteRangeCheck_some h2

/-- Evaluation of the date(base, +n days) expression under a nonnegative
threshold, a parseable base and an in-range result. -/
theorem sqliteDateAddDays_eval {base : String} {jd n : Int}
    (hn : 0 ≤ n) (hb : sqliteDateJD base = some jd) (hr : jd + n ≤ sqliteMaxDay) :
    sqliteDateAddDays base n = some (jd + n) := by
  have hlo := (sqliteDateJD_range hb).1
  unfold sqliteDateAddDays
  rw [if_neg (by omega), hb]
  show sqliteRangeCheck (jd + n) = some (jd + n)
  unfold sqliteRangeCheck
  rw [if_pos]
  simp only [Bool.and_eq_true, decide_eq_true_eq]
  exact ⟨by omega, hr⟩

/-- The WHERE predicate depends only on the expiry string. -/
theorem dueFilter_congr (th : Int) (utc : Date) {a b : Token}
    (he : a.expires_at = b.expires_at) :
    dueFilter th utc a = dueFilter th utc b := by
  unfold dueFilter
  rw [he]

/-! ## Sweep lemmas -/

/-- A sweep touches no row whose name is absent from the due list. -/
theorem sweepGo_lookup_of_not_mem (ex : Nat → HttpOutcome) (clock : Nat → Nat)
    (ld : Date) (n : String) :
    ∀ (l : List Token) (i : Nat) (st : List Token) (acc : List (String × String)),
      (∀ u ∈ l, u.name ≠ n) →
      lookupName (sweepGo ex clock ld l i st acc).store n = lookupName st n := by
  intro l
  induction l with
  | nil => intro i st acc _; rfl
  | cons t rest ih =>
    intro i st acc h
    cases hp : parseFromStrYMD t.expires_at with
    | none => simp only [sweepGo, hp]
    | some d =>
      cases hex : ex i with
      | transportError m =>
        simp only [sweepGo, hp, hex, send_telegram_notification]
        exact ih (i + 1) st _ (fun u hu => h u (List.mem_cons_of_mem _ hu))
      | response c =>
        simp only [sweepGo, hp, hex, send_telegram_notification]
        rw [ih (i + 1) _ _ (fun u hu => h u (List.mem_cons_of_mem _ hu))]
        exact lookupName_update_ne st t.name n _ (h t (List.mem_cons_self _ _))

/-- Fate of the i-th due row in a sweep whose due rows all parse and carry
pairwise distinct names: on a transport failure its stored row is untouched,
on a completed exchange its last_notified becomes the clock reading of its
own send step. -/
theorem sweepGo_lookup_at (ex : Nat → HttpOutcome) (clock : Nat → Nat) (ld : Date) :
    ∀ (l : List Token) (i0 : Nat) (st : List Token) (acc : List (String × String))
      (i : Nat) (t : Token),
      l.get? i = some t →
      (l.map Token.name).Nodup →
      (∀ u ∈ l, (parseFromStrYMD u.expires_at).isSome = true) →
      (∀ u ∈ l, lookupName st u.name = some u) →
      lookupName (sweepGo ex clock ld l i0 st acc).store t.name =
        (match ex (i0 + i) with
         | .transportError _ => some t
         | .response _ => some ⟨t.name, t.expires_at, some (clock (i0 + i))⟩) := by
  intro l
  induction l with
  | nil => intro i0 st acc i t hi; cases hi
  | cons hd rest ih =>
    intro i0 st acc i t hi hnd hall hst
    have hnd2 : hd.name ∉ rest.map Token.name ∧ (rest.map Token.name).Nodup := by
      rw [List.map_cons, List.nodup_cons] at hnd
      exact hnd
    have hnm : ∀ u ∈ rest, u.name ≠ hd.name := by
      intro u hu he
      exact hnd2.1 (he ▸ List.mem_map_of_mem Token.name hu)
    obtain ⟨dh, hph⟩ : ∃ d, parseFromStrYMD hd.expires_at = some d :=
      Option.isSome_iff_exists.mp (hall hd (List.mem_cons_self _ _))
    cases i with
    | zero =>
      obtain rfl : hd = t := by simpa using hi
      rw [Nat.add_zero]
      cases hex : ex i0 with
      | transportError m =>
        simp only [sweepGo, hph, hex, send_telegram_notification]
        rw [sweepGo_lookup_of_not_mem ex clock ld hd.name rest (i0 + 1) st _ hnm]
        exact hst hd (List.mem_cons_self _ _)
      | response c =>
        simp only [sweepGo, hph, hex, send_telegram_notification]
        rw [sweepGo_lookup_of_not_mem ex clock ld hd.name rest (i0 + 1) _ _ hnm]
        rw [lookupName_update_self st hd.name (clock i0) hd (hst hd (List.mem_cons_self _ _))]
    | succ j =>
      have hi2 : rest.get? j = some t := by
        rw [List.get?_cons_succ] at hi
        exact hi
      have hall2 : ∀ u ∈ rest, (parseFromStrYMD u.expires_at).isSome = true :=
        fun u hu => hall u (List.mem_cons_of_mem _ hu)
      have harith : i0 + 1 + j = i0 + (j + 1) := by omega
      cases hex : ex i0 with
      | transportError m =>
        simp only [sweepGo, hph, hex, send_telegram_notification]
        rw [ih (i0 + 1) st _ j t hi2 hnd2.2 hall2
          (fun u hu => hst u (List.mem_cons_of_mem _ hu)), harith]
      | response c =>
        simp only [sweepGo, hph, hex, send_telegram_notification]
        have hst2 : ∀ u ∈ rest,
            lookupName (update_last_notified st hd.name (clock i0)) u.name = some u := by
          intro u hu
          rw [lookupName_update_ne st hd.name u.name _ (fun he => hnm u hu he.symm)]
          exact hst u (List.mem_cons_of_mem _ hu)
        rw [ih (i0 + 1) _ _ j t hi2 hnd2.2 hall2 hst2, harith]

/-- The send attempted for a due row, as a function of the row alone. -/
def dueEntry (ld : Date) (u : Token) : String × String :=
  match parseFromStrYMD u.expires_at with
  | some d => (u.name, buildMessage u.name (d.toDays - ld.toDays))
  | none => (u.name, "")

/-- When every due row parses, the attempted sends are exactly the due rows
in order, each with its message. -/
theorem sweepGo_attempts (ex : Nat → HttpOutcome) (clock : Nat → Nat) (ld : Date) :
    ∀ (l : List Token) (i0 : Nat) (st : List Token) (acc : List (String × String)),
      (∀ u ∈ l, (parseFromStrYMD u.expires_at).isSome = true) →
      (sweepGo ex clock ld l i0 st acc).attempts = acc.reverse ++ l.map (dueEntry ld) := by
  intro l
  induction l with
  | nil => intro i0 st acc _; simp [sweepGo]
  | cons hd rest ih =>
    intro i0 st acc hall
    obtain ⟨d, hp⟩ := Option.isSome_iff_exists.mp (hall hd (List.mem_cons_self _ _))
    have hall2 : ∀ u ∈ rest, (parseFromStrYMD u.expires_at).isSome = true :=
      fun u hu => hall u (List.mem_cons_of_mem _ hu)
    cases hex : ex i0 with
    | transportError m =>
      simp only [sweepGo, hp, hex, send_telegram_notification]
      rw [ih (i0 + 1) st _ hall2]
      simp [dueEntry, hp]
    | response c =>
      simp only [sweepGo, hp, hex, send_telegram_notification]
      rw [ih (i0 + 1) _ _ hall2]
      simp [dueEntry, hp]

/-- The attempted sends depend only on name and expiry of each due row, never
on the store threaded through the sweep nor on notification state. -/
theorem sweepGo_attempts_congr (ex : Nat → HttpOutcome) (clock : Nat → Nat) (ld : Date) :
    ∀ (l1 l2 : List Token) (i0 : Nat) (st1 st2 : List Token) (acc : List (String × String)),
      l1.map eraseLastNotified = l2.map eraseLastNotified →
      (sweepGo ex clock ld l1 i0 st1 acc).attempts =
        (sweepGo ex clock ld l2 i0 st2 acc).attempts := by
  intro l1
  induction l1 with
  | nil =>
    intro l2 i0 st1 st2 acc h
    cases l2 with
    | nil => rfl
    | cons b t2 => simp at h
  | cons a t1 ih =>
    intro l2 i0 st1 st2 acc h
    cases l2 with
    | nil => simp at h
    | cons b t2 =>
      rw [List.map_cons, List.map_cons] at h
      injection h with h1 h2
      have hn : a.name = b.name := by
        have h3 := congrArg Token.name h1
        exact h3
      have he : a.expires_at = b.expires_at := by
        have h3 := congrArg Token.expires_at h1
        exact h3
      cases hp : parseFromStrYMD b.expires_at with
      | none => simp only [sweepGo, he, hp]
      | some d =>
        cases hex : ex i0 with
        | transportError m =>
          simp only [sweepGo, he, hn, hp, hex, send_telegram_notification]
          exact ih t2 (i0 + 1) st1 st2 _ h2
        | response c =>
          simp only [sweepGo, he, hn, hp, hex, send_telegram_notification]
          exact ih t2 (i0 + 1) _ _ _ h2

/-- The due list, up to notification state, depends only on the store up to
notification state. -/
theorem get_expiring_congr (th : Int) (now : Date) :
    ∀ (s1 s2 : List Token), s1.map eraseLastNotified = s2.map eraseLastNotified →
      (get_expiring_tokens s1 th now).map eraseLastNotified =
        (get_expiring_tokens s2 th now).map eraseLastNotified := by
  intro s1
  induction s1 with
  | nil =>
    intro s2 h
    cases s2 with
    | nil => rfl
    | cons b t2 => simp at h
  | cons a t1 ih =>
    intro s2 h
    cases s2 with
    | nil => simp at h
    | cons b t2 =>
      rw [List.map_cons, List.map_cons] at h
      injection h with h1 h2
      have he : a.expires_at = b.expires_at := by
        have h3 := congrArg Token.expires_at h1
        exact h3
      simp only [get_expiring_tokens, List.filter]
      rw [dueFilter_congr th now he]
      cases hpb : dueFilter th now b with
      | false => exact ih t2 h2
      | true =>
        rw [List.map_cons, List.map_cons, h1]
        have := ih t2 h2
        simp only [get_expiring_tokens] at this
        rw [this]

/-- Fate of the i-th due row of a whole sweep (check_and_notify). -/
theorem check_and_notify_lookup (store : List Token) (th : Int) (utc ld : Date)
    (ex : Nat → HttpOutcome) (clock : Nat → Nat)
    (hnd : (store.map Token.name).Nodup)
    (hall : ∀ u ∈ get_expiring_tokens store th utc,
      (parseFromStrYMD u.expires_at).isSome = true)
    (i : Nat) (t : Token)
    (hi : (get_expiring_tokens store th utc).get? i = some t) :
    lookupName (check_and_notify store th utc ld ex clock).store t.name =
      (match ex i with
       | .transportError _ => some t
       | .response _ => some ⟨t.name, t.expires_at, some (clock i)⟩) := by
  have hdue_sub : List.Sublist (get_expiring_tokens store th utc) store :=
    List.filter_sublist _
  have hdnd : ((get_expiring_tokens store th utc).map Token.name).Nodup :=
    List.Nodup.sublist (hdue_sub.map Token.name) hnd
  have hst : ∀ u ∈ get_expiring_tokens store th utc, lookupName store u.name = some u :=
    fun u hu => lookupName_self_of_nodup store hnd u (hdue_sub.subset hu)
  have key := sweepGo_lookup_at ex clock ld (get_expiring_tokens store th utc)
    0 store [] i t hi hdnd hall hst
  rw [Nat.zero_add] at key
  exact key

/-! ## Claim C3 -/

/-- Claim C3 counterexample. First input: threshold -1, now 2024-06-10, one
record expiring 2024-06-01; the record satisfies expires_at <= now + threshold
but the query returns nothing, because the SQL builds the modifier "+-1 days",
which SQLite rejects, turning the right-hand date() into NULL. Second input:
threshold 1, now 2024-06-10, a record stored as 2024-6-1 (chrono accepts the
unpadded form on add, so the row is reachable); it is nine days past due but
never selected, because SQLite date() requires zero-padded fields and yields
NULL on the left-hand side. -/
theorem get_expiring_claim_counterexample :
    (¬ ((⟨"a", "2024-06-01", none⟩ : Token) ∈
        get_expiring_tokens [⟨"a", "2024-06-01", none⟩] (-1) ⟨2024, 6, 10⟩ ↔
        daysFromCivil 2024 6 1 ≤ daysFromCivil 2024 6 10 + (-1))) ∧
    (add_token [] "b" "2024-6-1" = .ok [⟨"b", "2024-6-1", none⟩] ∧
      parseFromStrYMD "2024-6-1" = some ⟨2024, 6, 1⟩ ∧
      ¬ ((⟨"b", "2024-6-1", none⟩ : Token) ∈
          get_expiring_tokens [⟨"b", "2024-6-1", none⟩] 1 ⟨2024, 6, 10⟩ ↔
          daysFromCivil 2024 6 1 ≤ daysFromCivil 2024 6 10 + 1)) := by decide

/-- Claim C3 (amended): for every threshold_days >= 0, every now and every
stored record such that SQLite reads both the record expiry (so the stored
string is in strict zero-padded form) and now + threshold_days as in-range
dates, the record is returned if and only if its expiry day is at most
now + threshold_days, boundary included. -/
theorem get_expiring_tokens_iff_amended (store : List Token) (t : Token)
    (threshold : Int) (now : Date) (jd nowJD : Int)
    (hth : 0 ≤ threshold)
    (ht : sqliteDateJD t.expires_at = some jd)
    (hnow : sqliteDateJD (formatYMD now) = some nowJD)
    (hr : nowJD + threshold ≤ sqliteMaxDay) :
    t ∈ get_expiring_tokens store threshold now ↔
      t ∈ store ∧ jd ≤ nowJD + threshold := by
  have hrhs : sqliteDateAddDays (formatYMD now) threshold = some (nowJD + threshold) :=
    sqliteDateAddDays_eval hth hnow hr
  have hpred : dueFilter threshold now t = decide (jd ≤ nowJD + threshold) := by
    unfold dueFilter
    rw [ht, hrhs]
  unfold get_expiring_tokens
  rw [List.mem_filter, hpred]
  simp only [decide_eq_true_eq]

/-- Witness for the amended C3 at the boundary example of the specification:
threshold 1 and now 2024-06-10 include an expiry of 2024-06-11 and exclude an
expiry of 2024-06-12. -/
theorem get_expiring_tokens_iff_amended_witness :
    (⟨"a", "2024-06-11", none⟩ : Token) ∈
      get_expiring_tokens [⟨"a", "2024-06-11", none⟩, ⟨"b", "2024-06-12", none⟩]
        1 ⟨2024, 6, 10⟩ ∧
    (⟨"b", "2024-06-12", none⟩ : Token) ∉
      get_expiring_tokens [⟨"a", "2024-06-11", none⟩, ⟨"b", "2024-06-12", none⟩]
        1 ⟨2024, 6, 10⟩ := by
  constructor
  · exact (get_expiring_tokens_iff_amended
      [⟨"a", "2024-06-11", none⟩, ⟨"b", "2024-06-12", none⟩] ⟨"a", "2024-06-11", none⟩
      1 ⟨2024, 6, 10⟩ (daysFromCivil 2024 6 11) (daysFromCivil 2024 6 10)
      (by decide) (by decide) (by decide) (by decide)).mpr ⟨by decide, by decide⟩
  · intro hmem
    have h2 := (get_expiring_tokens_iff_amended
      [⟨"a", "2024-06-11", none⟩, ⟨"b", "2024-06-12", none⟩] ⟨"b", "2024-06-12", none⟩
      1 ⟨2024, 6, 10⟩ (daysFromCivil 2024 6 12) (daysFromCivil 2024 6 10)
      (by decide) (by decide) (by decide) (by decide)).mp hmem
    exact absurd h2.2 (by decide)

/-! ## Claim C4 -/

/-- Claim C4: for every due record the attempted message is computed from
days_remaining = expires_at - today in whole calendar days, and its wording
is the EXPIRED form when days_remaining <= 0, the singular day form when
days_remaining = 1, and the plural days form when days_remaining >= 2. -/
theorem check_message_wording (store : List Token) (th : Int) (utc ld : Date)
    (ex : Nat → HttpOutcome) (clock : Nat → Nat) (i : Nat) (t : Token) (d : Date)
    (hall : ∀ u ∈ get_expiring_tokens store th utc,
      (parseFromStrYMD u.expires_at).isSome = true)
    (hi : (get_expiring_tokens store th utc).get? i = some t)
    (hd : parseFromStrYMD t.expires_at = some d) :
    (check_and_notify store th utc ld ex clock).attempts.get? i =
      some (t.name, buildMessage t.name (d.toDays - ld.toDays)) ∧
    (∀ k : Int, k ≤ 0 →
      buildMessage t.name k = "🚨 Token \x27" ++ t.name ++ "\x27 has EXPIRED!") ∧
    buildMessage t.name 1 =
      "⚠️ Token \x27" ++ t.name ++ "\x27 will expire in " ++ toString (1 : Int)
        ++ " day" ++ "!" ∧
    (∀ k : Int, 2 ≤ k → buildMessage t.name k =
      "⚠️ Token \x27" ++ t.name ++ "\x27 will expire in " ++ toString k
        ++ " day" ++ "s" ++ "!") := by
  refine ⟨?_, ?_, ?_, ?_⟩
  · unfold check_and_notify
    rw [sweepGo_attempts ex clock ld (get_expiring_tokens store th utc) 0 store [] hall]
    simp only [List.reverse_nil, List.nil_append]
    rw [List.get?_map, hi]
    simp only [Option.map_some', dueEntry, hd]
  · intro k hk
    unfold buildMessage
    rw [if_pos hk]
  · unfold buildMessage
    rw [if_neg (by omega), if_neg (by omega), String.append_empty]
  · intro k hk
    unfold buildMessage
    rw [if_neg (by omega), if_pos (by omega)]

/-- Witness for C4: a record one day from expiry yields the singular message,
and the other wordings at concrete day counts. -/
theorem check_message_wording_witness :
    (check_and_notify [⟨"a", "2024-06-11", none⟩] 1 ⟨2024, 6, 10⟩ ⟨2024, 6, 10⟩
        (fun _ => .response 200) (fun _ => 0)).attempts.get? 0 =
      some ("a", buildMessage "a"
        ((⟨2024, 6, 11⟩ : Date).toDays - (⟨2024, 6, 10⟩ : Date).toDays)) ∧
    buildMessage "a" 0 = "🚨 Token \x27" ++ "a" ++ "\x27 has EXPIRED!" ∧
    buildMessage "a" 1 =
      "⚠️ Token \x27" ++ "a" ++ "\x27 will expire in " ++ toString (1 : Int)
        ++ " day" ++ "!" ∧
    buildMessage "a" 3 =
      "⚠️ Token \x27" ++ "a" ++ "\x27 will expire in " ++ toString (3 : Int)
        ++ " day" ++ "s" ++ "!" := by
  have H := check_message_wording [⟨"a", "2024-06-11", none⟩] 1 ⟨2024, 6, 10⟩
    ⟨2024, 6, 10⟩ (fun _ => .response 200) (fun _ => 0) 0 ⟨"a", "2024-06-11", none⟩
    ⟨2024, 6, 11⟩ (by decide) (by decide) (by decide)
  exact ⟨H.1, H.2.1 0 (by decide), H.2.2.1, H.2.2.2 3 (by decide)⟩

/-! ## Claim C6 -/

/-- Claim C6: within a sweep, a due record whose send fails at the transport
level keeps its stored row (and in particular its last_notified) unchanged
while the sweep continues, and a due record whose exchange completes gets
last_notified set to a clock reading of its own send step, which is not
earlier than the first reading of the sweep. -/
theorem sweep_send_failure_isolated (store : List Token) (th : Int) (utc ld : Date)
    (ex : Nat → HttpOutcome) (clock : Nat → Nat)
    (hclock : ∀ i j : Nat, i ≤ j → clock i ≤ clock j)
    (hnd : (store.map Token.name).Nodup)
    (hall : ∀ u ∈ get_expiring_tokens store th utc,
      (parseFromStrYMD u.expires_at).isSome = true)
    (i : Nat) (t : Token)
    (hi : (get_expiring_tokens store th utc).get? i = some t) :
    (∀ m, ex i = .transportError m →
      lookupName (check_and_notify store th utc ld ex clock).store t.name = some t ∧
      lookupName store t.name = some t) ∧
    (∀ c, ex i = .response c →
      lookupName (check_and_notify store th utc ld ex clock).store t.name =
        some ⟨t.name, t.expires_at, some (clock i)⟩ ∧
      clock 0 ≤ clock i) := by
  have key := check_and_notify_lookup store th utc ld ex clock hnd hall i t hi
  have hmem : t ∈ get_expiring_tokens store th utc := List.get?_mem hi
  have horig : lookupName store t.name = some t :=
    lookupName_self_of_nodup store hnd t ((List.filter_sublist _).subset hmem)
  refine ⟨fun m hm => ⟨?_, horig⟩, fun c hc => ⟨?_, hclock 0 i (Nat.zero_le i)⟩⟩
  · rw [key, hm]
  · rw [key, hc]

/-- Witness for C6: one sweep over two due records, the first send failing at
the transport level and the second completing. -/
theorem sweep_send_failure_isolated_witness :
    (lookupName (check_and_notify
        [⟨"a", "2024-06-11", none⟩, ⟨"b", "2024-06-11", some 3⟩] 1
        ⟨2024, 6, 10⟩ ⟨2024, 6, 10⟩
        (fun i => if i = 0 then .transportError "net" else .response 200)
        (fun i => i)).store "a" = some ⟨"a", "2024-06-11", none⟩ ∧
      lookupName [⟨"a", "2024-06-11", none⟩, ⟨"b", "2024-06-11", some 3⟩] "a" =
        some ⟨"a", "2024-06-11", none⟩) ∧
    (lookupName (check_and_notify
        [⟨"a", "2024-06-11", none⟩, ⟨"b", "2024-06-11", some 3⟩] 1
        ⟨2024, 6, 10⟩ ⟨2024, 6, 10⟩
        (fun i => if i = 0 then .transportError "net" else .response 200)
        (fun i => i)).store "b" = some ⟨"b", "2024-06-11", some 1⟩ ∧
      (1 : Nat) ≥ 0) := by
  have h1 := (sweep_send_failure_isolated
    [⟨"a", "2024-06-11", none⟩, ⟨"b", "2024-06-11", some 3⟩] 1
    ⟨2024, 6, 10⟩ ⟨2024, 6, 10⟩
    (fun i => if i = 0 then .transportError "net" else .response 200)
    (fun i => i) (fun i j h => h) (by decide) (by decide) 0
    ⟨"a", "2024-06-11", none⟩ (by decide)).1 "net" (by decide)
  have h2 := (sweep_send_failure_isolated
    [⟨"a", "2024-06-11", none⟩, ⟨"b", "2024-06-11", some 3⟩] 1
    ⟨2024, 6, 10⟩ ⟨2024, 6, 10⟩
    (fun i => if i = 0 then .transportError "net" else .response 200)
    (fun i => i) (fun i j h => h) (by decide) (by decide) 1
    ⟨"b", "2024-06-11", some 3⟩ (by decide)).2 200 (by decide)
  exact ⟨⟨h1.1, h1.2⟩, ⟨h2.1, Nat.zero_le 1⟩⟩

/-! ## Claim C7 -/

/-- Claim C7: the daemon loop has no terminal state; after every iteration
the next sweep runs on the resulting store, and the error component of a sweep
(which the loop only logs) never influences the trace: two sweep behaviors
agreeing on stores but differing arbitrarily in errors drive the daemon
through identical states. -/
theorem daemon_sweep_error_isolated :
    (∀ (th : Int) (utc ld : Nat → Date) (ex : Nat → Nat → HttpOutcome)
        (clock : Nat → Nat → Nat) (s0 : List Token) (n : Nat),
      daemonTrace (fun k st => check_and_notify st th (utc k) (ld k) (ex k) (clock k))
          s0 (n + 1) =
        (check_and_notify
          (daemonTrace (fun k st => check_and_notify st th (utc k) (ld k) (ex k) (clock k))
            s0 n)
          th (utc n) (ld n) (ex n) (clock n)).store) ∧
    (∀ (f g : Nat → List Token → SweepResult) (s0 : List Token),
      (∀ n st, (f n st).store = (g n st).store) →
      ∀ n, daemonTrace f s0 n = daemonTrace g s0 n) := by
  constructor
  · intro th utc ld ex clock s0 n
    rfl
  · intro f g s0 h n
    induction n with
    | zero => rfl
    | succ k ih =>
      simp only [daemonTrace]
      rw [ih, h]

/-- Witness for C7: a run whose sweeps all error against a run whose sweeps
all succeed, with equal store behavior, traverses the same states. -/
theorem daemon_sweep_error_isolated_witness :
    daemonTrace (fun _ st => ⟨st, [], none⟩) [] 5 =
      daemonTrace (fun _ st => ⟨st, [], some (.validation "boom")⟩) [] 5 :=
  daemon_sweep_error_isolated.2 (fun _ st => ⟨st, [], none⟩)
    (fun _ st => ⟨st, [], some (.validation "boom")⟩) [] (fun _ _ => rfl) 5

/-! ## Claim C9 -/

/-- Claim C9: the sends attempted by a sweep are independent of every
last_notified value: two stores identical except in last_notified produce
identical attempt lists, so last_notified is never consulted to suppress a
repeat send and a still-due token is attempted once per sweep. -/
theorem sweep_attempts_ignore_last (s1 s2 : List Token) (th : Int) (utc ld : Date)
    (ex : Nat → HttpOutcome) (clock : Nat → Nat)
    (h : s1.map eraseLastNotified = s2.map eraseLastNotified) :
    (check_and_notify s1 th utc ld ex clock).attempts =
      (check_and_notify s2 th utc ld ex clock).attempts := by
  unfold check_and_notify
  exact sweepGo_attempts_congr ex clock ld _ _ 0 s1 s2 []
    (get_expiring_congr th utc s1 s2 h)

/-- Witness for C9: the same store with and without a recorded notification
attempts the same sends. -/
theorem sweep_attempts_ignore_last_witness :
    (check_and_notify [⟨"a", "2024-06-11", none⟩] 1 ⟨2024, 6, 10⟩ ⟨2024, 6, 10⟩
        (fun _ => .response 200) (fun _ => 0)).attempts =
      (check_and_notify [⟨"a", "2024-06-11", some 99⟩] 1 ⟨2024, 6, 10⟩ ⟨2024, 6, 10⟩
        (fun _ => .response 200) (fun _ => 0)).attempts :=
  sweep_attempts_ignore_last [⟨"a", "2024-06-11", none⟩] [⟨"a", "2024-06-11", some 99⟩]
    1 ⟨2024, 6, 10⟩ ⟨2024, 6, 10⟩ (fun _ => .response 200) (fun _ => 0) (by decide)

/-! ## Claim C10 -/

/-- Claim C10: the send reports success for any HTTP exchange that completes
at the transport level, whatever the status code; a rejected send (for example
a 403 or 429 error response) counts as delivered and the record gets its
last_notified updated as if the notification had arrived. -/
theorem send_status_not_inspected (status : Nat) (store : List Token) (th : Int)
    (utc ld : Date) (ex : Nat → HttpOutcome) (clock : Nat → Nat)
    (hnd : (store.map Token.name).Nodup)
    (hall : ∀ u ∈ get_expiring_tokens store th utc,
      (parseFromStrYMD u.expires_at).isSome = true)
    (i : Nat) (t : Token)
    (hi : (get_expiring_tokens store th utc).get? i = some t)
    (hex : ex i = .response status) :
    send_telegram_notification (.response status) = .ok () ∧
    lookupName (check_and_notify store th utc ld ex clock).store t.name =
      some ⟨t.name, t.expires_at, some (clock i)⟩ := by
  have key := check_and_notify_lookup store th utc ld ex clock hnd hall i t hi
  exact ⟨rfl, by rw [key, hex]⟩

/-- Witness for C10: a 403 error response still marks the record notified. -/
theorem send_status_not_inspected_witness :
    send_telegram_notification (.response 403) = .ok () ∧
    lookupName (check_and_notify [⟨"a", "2024-06-11", none⟩] 1 ⟨2024, 6, 10⟩
        ⟨2024, 6, 10⟩ (fun _ => .response 403) (fun _ => 7)).store "a" =
      some ⟨"a", "2024-06-11", some 7⟩ :=
  send_status_not_inspected 403 [⟨"a", "2024-06-11", none⟩] 1 ⟨2024, 6, 10⟩
    ⟨2024, 6, 10⟩ (fun _ => .response 403) (fun _ => 7) (by decide) (by decide) 0
    ⟨"a", "2024-06-11", none⟩ (by decide) (by decide)

end ExpNotifier
